import Mathlib

/-!
Verification of the task-similarity recommender
(`recommend_similar_tasks/recommender_sys_for_input.py`).

The Python source is shallowly embedded here:
* `cleaner` models the text cleaner (lowercase, keep ASCII alphanumerics,
  whitespace tokenization, NLTK English stop-word removal, re-join).
* `dataframe_column_to_cosine_sim` models the TF-IDF + linear-kernel
  similarity builder (sklearn `TfidfVectorizer(stop_words=english)` with
  its default token pattern, smoothed idf and l2 normalization), over `ℝ`.
* `get_recommendations` models the recommender, generic in the score type.
* `initialize_frame_for_recommender` models the frame preparer; its result
  carries, as a second component, the state of the caller-supplied table
  after the call (the source mutates the caller frame only through the
  `cleaned_column` assignment in the no-insertion branch; `DataFrame.append`
  in pandas returns a fresh frame).

Tabular cell values are modeled as their string representations (the
pipeline coerces values with `str` before cleaning, and only equality with
the query title is ever tested on raw values).
-/

set_option maxHeartbeats 1000000

namespace TaskRec

/-- ASCII letters and digits, the character class of the regex
`[^A-Za-z0-9]` used in `cleaner` (complemented). -/
def isAsciiAlnum (c : Char) : Bool :=
  (('A' ≤ c) && (c ≤ 'Z')) || (('a' ≤ c) && (c ≤ 'z')) || (('0' ≤ c) && (c ≤ '9'))

/-- The 26 uppercase ASCII letters with their lowercase counterparts. -/
def upperLowerTable : List (Char × Char) :=
  [('A', 'a'), ('B', 'b'), ('C', 'c'), ('D', 'd'), ('E', 'e'), ('F', 'f'),
   ('G', 'g'), ('H', 'h'), ('I', 'i'), ('J', 'j'), ('K', 'k'), ('L', 'l'),
   ('M', 'm'), ('N', 'n'), ('O', 'o'), ('P', 'p'), ('Q', 'q'), ('R', 'r'),
   ('S', 's'), ('T', 't'), ('U', 'u'), ('V', 'v'), ('W', 'w'), ('X', 'x'),
   ('Y', 'y'), ('Z', 'z')]

/-- The 26 lowercase ASCII letters. -/
def lowerLetters : List Char :=
  ['a', 'b', 'c', 'd', 'e', 'f', 'g', 'h', 'i', 'j', 'k', 'l', 'm',
   'n', 'o', 'p', 'q', 'r', 's', 't', 'u', 'v', 'w', 'x', 'y', 'z']

/-- ASCII lower-casing, modeling Python `str.lower` on the ASCII range
(the only characters that survive the regex substitution), written as an
explicit table lookup over the 26 uppercase letters. -/
def asciiLower (c : Char) : Char :=
  match upperLowerTable.find? (fun p => p.1 == c) with
  | some p => p.2
  | none => c

/-- Split a character list on spaces, dropping empty pieces; `acc` holds the
current, still unfinished token. Models whitespace tokenization: on the
alphanumeric-plus-space strings produced by the regex substitution,
`nltk.word_tokenize` and Python `str.split()` both reduce to this. -/
def splitAux : List Char → List Char → List (List Char)
  | [], acc => if acc.isEmpty then [] else [acc]
  | c :: cs, acc =>
    if c = ' ' then (if acc.isEmpty then splitAux cs [] else acc :: splitAux cs [])
    else splitAux cs (acc ++ [c])

/-- Whitespace tokenization of a character list. -/
def splitToks (l : List Char) : List (List Char) := splitAux l []

/-- Join tokens with single spaces (`" ".join` in the source). -/
def joinSp : List (List Char) → List Char
  | [] => []
  | [t] => t
  | t :: ts => t ++ ' ' :: joinSp ts

/-- The NLTK English stop-word list used by `cleaner`
(`stopwords.words('english')`). Entries containing an apostrophe are
omitted: after the regex substitution every token is purely alphanumeric,
so such entries can never match a token. -/
def nltk_stopwords : List String :=
  ["i", "me", "my", "myself", "we", "our", "ours", "ourselves", "you",
   "your", "yours", "yourself", "yourselves", "he", "him", "his",
   "himself", "she", "her", "hers", "herself", "it", "its", "itself",
   "they", "them", "their", "theirs", "themselves", "what", "which",
   "who", "whom", "this", "that", "these", "those", "am", "is", "are",
   "was", "were", "be", "been", "being", "have", "has", "had", "having",
   "do", "does", "did", "doing", "a", "an", "the", "and", "but", "if",
   "or", "because", "as", "until", "while", "of", "at", "by", "for",
   "with", "about", "against", "between", "into", "through", "during",
   "before", "after", "above", "below", "to", "from", "up", "down", "in",
   "out", "on", "off", "over", "under", "again", "further", "then",
   "once", "here", "there", "when", "where", "why", "how", "all", "any",
   "both", "each", "few", "more", "most", "other", "some", "such", "no",
   "nor", "not", "only", "own", "same", "so", "than", "too", "very",
   "s", "t", "can", "will", "just", "don", "should", "now", "d", "ll",
   "m", "o", "re", "ve", "y", "ain", "aren", "couldn", "didn", "doesn",
   "hadn", "hasn", "haven", "isn", "ma", "mightn", "mustn", "needn",
   "shan", "shouldn", "wasn", "weren", "won", "wouldn"]

/-- The surviving tokens of the cleaner: lowercase the text, replace every
character outside `[A-Za-z0-9]` by a space, tokenize on whitespace, drop
NLTK English stop-words. -/
def cleanerTokens (text : String) : List (List Char) :=
  (splitToks ((text.data.map asciiLower).map (fun c => if isAsciiAlnum c then c else ' '))).filter
    (fun t => !(nltk_stopwords.contains (String.mk t)))

/-- The text cleaner (source lines 12-31): the surviving tokens re-joined
with single spaces. -/
def cleaner (text : String) : String :=
  String.mk (joinSp (cleanerTokens text))

/-- A character of the cleaned alphabet: alphanumeric and already
lower-cased. Tokens surviving the cleaner consist of such characters. -/
def GoodChar (c : Char) : Prop := isAsciiAlnum c = true ∧ asciiLower c = c

/-- A text made of letters, digits and stop-words (with whitespace as the
only separator): every character is an ASCII letter, an ASCII digit or a
space. -/
def lettersDigitsStopwordsOnly (x : String) : Prop :=
  ∀ c ∈ x.data, isAsciiAlnum c = true ∨ c = ' '

/-! ## Tabular data model -/

/-- A dataframe: a list of column labels and a list of rows, each row a list
of cell values (modeled as strings, see the file header). -/
structure DataFrame where
  cols : List String
  rows : List (List String)
deriving DecidableEq

/-- Index of the first column with the given label, if any (`df[c]`). -/
def findColIdx (c : String) : List String → Option Nat
  | [] => none
  | v :: vs => if v = c then some 0 else (findColIdx c vs).map (· + 1)

/-- Position of the column labeled `c` in `df`. -/
def colIdx (df : DataFrame) (c : String) : Option Nat := findColIdx c df.cols

/-- The values of column number `ci`, one per row (`df[c].tolist()`). -/
def colVals (df : DataFrame) (ci : Nat) : List String :=
  df.rows.map (fun r => r.getD ci "")

/-- Number of occurrences of `title` in a value list. -/
def countOcc (title : String) : List String → Nat
  | [] => 0
  | v :: vs => (if v = title then 1 else 0) + countOcc title vs

/-- Index of the first occurrence of `title` (length of the list if absent).
Together with `countOcc = 1` this models the pandas lookup
`pd.Series(df.index, index=df[column])[title]` on unique labels. -/
def firstIdx (title : String) : List String → Nat
  | [] => 0
  | v :: vs => if v = title then 0 else firstIdx title vs + 1

/-- The distinct failure modes of the pipeline, one constructor per raise
site of the source (several share the Python exception class `ValueError`
or `KeyError`; they are distinguished here by site, following the error
taxonomy of the specification). `ambiguousTitle` stands for the
implementation-defined failure pandas produces downstream when the title
labels several rows; no theorem below relies on its details. -/
inductive PipeError where
  | invalidTopN
  | missingColumn
  | keyNotFound
  | ambiguousTitle
  | simIndexOut
  | ilocIndexOut
  | insufficientInput
  | duplicateInput
  | shapeMismatch
deriving DecidableEq

/-- Whether a pipeline outcome is a success (no exception raised). -/
def exceptIsOk : Except PipeError DataFrame → Bool
  | .ok _ => true
  | .error _ => false

/-! ## Similarity builder (sklearn TF-IDF + linear kernel), over `ℝ` -/

/-- Word characters of the default sklearn token pattern `\w\w+`,
restricted to ASCII. -/
def isWordChar (c : Char) : Bool := isAsciiAlnum c || c = '_'

/-- Tokenization performed by `TfidfVectorizer`: lowercase, then keep
maximal runs of word characters of length at least 2. -/
def sklearnTokens (s : String) : List String :=
  let lowered := s.data.map asciiLower
  let replaced := lowered.map (fun c => if isWordChar c then c else ' ')
  ((splitToks replaced).filter (fun t => 2 ≤ t.length)).map String.mk

/-- The sklearn English stop-word list (`stop_words='english'`). -/
def sklearn_stop_words : List String :=
  ["a", "about", "above", "across", "after", "afterwards", "again",
   "against", "all", "almost", "alone", "along", "already", "also",
   "although", "always", "am", "among", "amongst", "amoungst", "amount",
   "an", "and", "another", "any", "anyhow", "anyone", "anything",
   "anyway", "anywhere", "are", "around", "as", "at", "back", "be",
   "became", "because", "become", "becomes", "becoming", "been",
   "before", "beforehand", "behind", "being", "below", "beside",
   "besides", "between", "beyond", "bill", "both", "bottom", "but",
   "by", "call", "can", "cannot", "cant", "co", "con", "could",
   "couldnt", "cry", "de", "describe", "detail", "do", "done", "down",
   "due", "during", "each", "eg", "eight", "either", "eleven", "else",
   "elsewhere", "empty", "enough", "etc", "even", "ever", "every",
   "everyone", "everything", "everywhere", "except", "few", "fifteen",
   "fifty", "fill", "find", "fire", "first", "five", "for", "former",
   "formerly", "forty", "found", "four", "from", "front", "full",
   "further", "get", "give", "go", "had", "has", "hasnt", "have", "he",
   "hence", "her", "here", "hereafter", "hereby", "herein", "hereupon",
   "hers", "herself", "him", "himself", "his", "how", "however",
   "hundred", "i", "ie", "if", "in", "inc", "indeed", "interest",
   "into", "is", "it", "its", "itself", "keep", "last", "latter",
   "latterly", "least", "less", "ltd", "made", "many", "may", "me",
   "meanwhile", "might", "mill", "mine", "more", "moreover", "most",
   "mostly", "move", "much", "must", "my", "myself", "name", "namely",
   "neither", "never", "nevertheless", "next", "nine", "no", "nobody",
   "none", "noone", "nor", "not", "nothing", "now", "nowhere", "of",
   "off", "often", "on", "once", "one", "only", "onto", "or", "other",
   "others", "otherwise", "our", "ours", "ourselves", "out", "over",
   "own", "part", "per", "perhaps", "please", "put", "rather", "re",
   "same", "see", "seem", "seemed", "seeming", "seems", "serious",
   "several", "she", "should", "show", "side", "since", "sincere",
   "six", "sixty", "so", "some", "somehow", "someone", "something",
   "sometime", "sometimes", "somewhere", "still", "such", "system",
   "take", "ten", "than", "that", "the", "their", "them", "themselves",
   "then", "thence", "there", "thereafter", "thereby", "therefore",
   "therein", "thereupon", "these", "they", "thick", "thin", "third",
   "this", "those", "though", "three", "through", "throughout", "thru",
   "thus", "to", "together", "too", "top", "toward", "towards",
   "twelve", "twenty", "two", "un", "under", "until", "up", "upon",
   "us", "very", "via", "was", "we", "well", "were", "what", "whatever",
   "when", "whence", "whenever", "where", "whereafter", "whereas",
   "whereby", "wherein", "whereupon", "wherever", "whether", "which",
   "while", "whither", "who", "whoever", "whole", "whom", "whose",
   "why", "will", "with", "within", "without", "would", "yet", "you",
   "your", "yours", "yourself", "yourselves"]

/-- Terms of one corpus entry after vectorizer tokenization and vectorizer
stop-word removal. -/
def processedDoc (s : String) : List String :=
  (sklearnTokens s).filter (fun t => !(sklearn_stop_words.contains t))

/-- The vocabulary: the distinct processed terms of the corpus. -/
def vocab (corpus : List String) : List String :=
  (corpus.map processedDoc).flatten.dedup

/-- Number of corpus entries containing term `t`. -/
def docFreq (corpus : List String) (t : String) : Nat :=
  ((corpus.map processedDoc).filter (fun d => d.contains t)).length

/-- Smoothed inverse document frequency, sklearn default:
`ln((1 + n) / (1 + df)) + 1`. -/
noncomputable def idfVal (corpus : List String) (t : String) : ℝ :=
  Real.log ((1 + (corpus.length : ℝ)) / (1 + (docFreq corpus t : ℝ))) + 1

/-- Raw TF-IDF weight of term `t` in corpus entry `i`
(term count times idf). -/
noncomputable def tfidfEntry (corpus : List String) (i : Nat) (t : String) : ℝ :=
  ((processedDoc (corpus.getD i "")).count t : ℝ) * idfVal corpus t

/-- Squared l2 norm of the raw TF-IDF vector of entry `i`. -/
noncomputable def rowNormSq (corpus : List String) (i : Nat) : ℝ :=
  ((vocab corpus).map (fun t => tfidfEntry corpus i t ^ 2)).sum

/-- The l2-normalized TF-IDF weight; a zero vector is left unchanged,
as sklearn normalization does. -/
noncomputable def normalizedEntry (corpus : List String) (i : Nat) (t : String) : ℝ :=
  if rowNormSq corpus i = 0 then tfidfEntry corpus i t
  else tfidfEntry corpus i t / Real.sqrt (rowNormSq corpus i)

/-- Entry `(i, j)` of `linear_kernel(tfidf_matrix, tfidf_matrix)`: the dot
product of the normalized rows `i` and `j`. -/
noncomputable def cosineEntry (corpus : List String) (i j : Nat) : ℝ :=
  ((vocab corpus).map (fun t => normalizedEntry corpus i t * normalizedEntry corpus j t)).sum

/-- The full pairwise similarity matrix over the corpus. -/
noncomputable def cosineSimMatrix (corpus : List String) : List (List ℝ) :=
  (List.range corpus.length).map (fun i =>
    (List.range corpus.length).map (fun j => cosineEntry corpus i j))

/-- The similarity builder (source lines 34-68): reads the corpus from the
designated column (`KeyError` when the column is missing) and returns the
corpus together with its similarity matrix. The sparse TF-IDF matrix also
returned by the source is unused by all callers and not modeled; the
diagnostic timing print is a side effect outside the functional contract. -/
noncomputable def dataframe_column_to_cosine_sim (df : DataFrame) (column : String) :
    Except PipeError (List String × List (List ℝ)) :=
  match colIdx df column with
  | none => .error .missingColumn
  | some ci => .ok (colVals df ci, cosineSimMatrix (colVals df ci))

/-! ## Recommender -/

/-- Descending, score-major comparison used to model Python
`sorted(..., key=lambda x: x[1], reverse=True)`: stable sorts for a total
preorder are unique, so Mathlib insertion sort under this relation yields
exactly the list Python produces. -/
def sortScores {α : Type} [LinearOrder α] (l : List (Nat × α)) : List (Nat × α) :=
  l.insertionSort (fun a b => b.2 ≤ a.2)

/-- The row positions kept by the recommender: pair each score of the
query's similarity row with its position (`enumerate`), sort by descending
score with a stable sort (Python `sorted(..., reverse=True)`; stable sorts
for a total preorder are unique, so insertion sort under this relation
yields exactly the list Python produces), drop the leading entry and keep
the positions of the next `top_n` (`sim_scores[1:top_n+1]`). -/
def keptIndices {α : Type} [LinearOrder α] (simRow : List α) (top_n : Int) : List Nat :=
  ((((sortScores simRow.enum).drop 1).take top_n.toNat).map Prod.fst)

/-- The final projection `df[['ID', column, 'Deadline']].iloc[item_indices]`
(`KeyError` when a projected column is absent, `IndexError` when a position
is out of range). -/
def projStep (df : DataFrame) (column : String) (ci : Nat) (item_indices : List Nat) :
    Except PipeError DataFrame :=
  match colIdx df "ID", colIdx df "Deadline" with
  | some idCol, some dlCol =>
    if ∀ k ∈ item_indices, k < df.rows.length then
      .ok { cols := ["ID", column, "Deadline"],
            rows := item_indices.map (fun k =>
              [(df.rows.getD k []).getD idCol "", (df.rows.getD k []).getD ci "",
               (df.rows.getD k []).getD dlCol ""]) }
    else .error .ilocIndexOut
  | _, _ => .error .missingColumn

/-- The recommender `get_recommendations` (source lines 71-113), generic in
the score type. Steps, in source order: validate `1 < top_n < 20`
(`ValueError` otherwise); re-index (positional model: no effect); look the
title up in the designated column (missing column and absent title are both
`KeyError` in pandas, distinguished here by site; several matches are
implementation-defined, see `PipeError.ambiguousTitle`); read the query row
of the similarity matrix (`IndexError` when absent); sort, slice and
project via `keptIndices` and `projStep`. -/
def get_recommendations {α : Type} [LinearOrder α] (title : String)
    (cosine_sim : List (List α)) (df : DataFrame) (column : String) (top_n : Int) :
    Except PipeError DataFrame :=
  if ¬ (top_n < 20 ∧ 1 < top_n) then .error .invalidTopN
  else
    match colIdx df column with
    | none => .error .missingColumn
    | some ci =>
      if countOcc title (colVals df ci) = 0 then .error .keyNotFound
      else if 2 ≤ countOcc title (colVals df ci) then .error .ambiguousTitle
      else
        match cosine_sim[firstIdx title (colVals df ci)]? with
        | none => .error .simIndexOut
        | some simRow => projStep df column ci (keptIndices simRow top_n)

/-! ## Frame preparer -/

/-- The cell values of the synthetic query row,
`[999, title, '0', 'You want to?']` (source line 141), as strings. -/
def new_row_values (title : String) : List String :=
  ["999", title, "0", "You want to?"]

/-- The working frame after `df = df.append(new_row, ignore_index=True)`:
a fresh frame with the synthetic query row at the end. -/
def appendedFrame (df : DataFrame) (title : String) : DataFrame :=
  { cols := df.cols, rows := df.rows ++ [new_row_values title] }

/-- The cleaned values of column `ci`:
`df[column].apply(lambda x: cleaner(str(x)))`. -/
def cleanedValsOf (df : DataFrame) (ci : Nat) : List String :=
  df.rows.map (fun r => cleaner (r.getD ci ""))

/-- Assignment `df['cleaned_column'] = df[column].apply(cleaner)`: replaces
an existing `cleaned_column` or appends a fresh one. -/
def addCleanedColumn (df : DataFrame) (ci : Nat) : DataFrame :=
  match colIdx df "cleaned_column" with
  | some k => { cols := df.cols,
                rows := df.rows.zipWith (fun r v => r.set k v) (cleanedValsOf df ci) }
  | none => { cols := df.cols ++ ["cleaned_column"],
              rows := df.rows.zipWith (fun r v => r ++ [v]) (cleanedValsOf df ci) }

/-- The frame preparer `initialize_frame_for_recommender`
(source lines 115-155). The first component is the outcome (an error or the
recommendation table), the second the caller-supplied frame as the caller
observes it after the call:
* insertion path (`new_string = true`): `pd.DataFrame.append` returns a new
  frame and the local name `df` is rebound to it, so every later step acts
  on the fresh working frame and the caller frame comes back unchanged;
* no-insertion path: the `cleaned_column` assignment mutates the caller
  frame in place.
In source order: check the cleaned title has at least 2 tokens (`IOError`
otherwise); build the synthetic row positionally against `df.columns`
(pandas `ValueError` unless the table has exactly 4 columns); append it;
compute `cleaned_column` (`KeyError` when `column` is missing); fail with
`ValueError` when the cleaned title equals a pre-existing cleaned value
(all entries except the last one); build the similarity matrix; delegate to
`get_recommendations`. -/
noncomputable def initialize_frame_for_recommender (df : DataFrame)
    (title column : String) (top_n : Int) (new_string : Bool) :
    Except PipeError DataFrame × DataFrame :=
  if new_string then
    if (splitToks (cleaner title).data).length < 2 then (.error .insufficientInput, df)
    else if df.cols.length ≠ 4 then (.error .shapeMismatch, df)
    else
      match colIdx (appendedFrame df title) column with
      | none => (.error .missingColumn, df)
      | some ci =>
        if cleaner title ∈ (cleanedValsOf (appendedFrame df title) ci).dropLast then
          (.error .duplicateInput, df)
        else
          match dataframe_column_to_cosine_sim
              (addCleanedColumn (appendedFrame df title) ci) "cleaned_column" with
          | .error e => (.error e, df)
          | .ok res =>
            (get_recommendations title res.2
              (addCleanedColumn (appendedFrame df title) ci) column top_n, df)
  else
    match colIdx df column with
    | none => (.error .missingColumn, df)
    | some ci =>
      match dataframe_column_to_cosine_sim (addCleanedColumn df ci) "cleaned_column" with
      | .error e => (.error e, addCleanedColumn df ci)
      | .ok res =>
        (get_recommendations title res.2 (addCleanedColumn df ci) column top_n,
         addCleanedColumn df ci)

/-! ## Lemmas: tokenization and the cleaner -/

/-- Every lowercase counterpart in the table is a lowercase letter. -/
theorem upperLowerTable_snd : ∀ p ∈ upperLowerTable, p.2 ∈ lowerLetters := by decide

/-- Lower-casing fixes each of the 26 lowercase letters. -/
theorem asciiLower_fix_lower : ∀ d ∈ lowerLetters, asciiLower d = d := by decide

/-- Lower-casing leaves a character unchanged or yields one of the 26
lowercase letters. -/
theorem asciiLower_cases (c : Char) :
    asciiLower c = c ∨ asciiLower c ∈ lowerLetters := by
  rw [asciiLower]
  cases h : upperLowerTable.find? (fun p => p.1 == c) with
  | none => exact .inl rfl
  | some p => exact .inr (upperLowerTable_snd p (List.mem_of_find?_eq_some h))

/-- Lower-casing is idempotent on every character. -/
theorem asciiLower_idem (c : Char) : asciiLower (asciiLower c) = asciiLower c := by
  rcases asciiLower_cases c with h | h
  · rw [h, h]
  · exact asciiLower_fix_lower _ h

/-- Every token produced by `splitAux` is nonempty, and its characters are
non-space characters satisfying the invariant `P` carried by the input. -/
theorem splitAux_tokens (P : Char → Prop) :
    ∀ (l acc : List Char), (∀ c ∈ l, c = ' ' ∨ P c) → (∀ c ∈ acc, c ≠ ' ' ∧ P c) →
      ∀ t ∈ splitAux l acc, t ≠ [] ∧ ∀ c ∈ t, c ≠ ' ' ∧ P c
  | [], acc, _, hacc, t, ht => by
    unfold splitAux at ht
    by_cases h : acc.isEmpty
    · simp [h] at ht
    · simp only [h, if_neg, Bool.false_eq_true, ite_false, List.mem_singleton] at ht
      subst ht
      exact ⟨by simpa [List.isEmpty_iff] using h, hacc⟩
  | c :: cs, acc, hl, hacc, t, ht => by
    unfold splitAux at ht
    by_cases hc : c = ' '
    · rw [if_pos hc] at ht
      by_cases ha : acc.isEmpty
      · rw [if_pos ha] at ht
        exact splitAux_tokens P cs [] (fun d hd => hl d (List.mem_cons_of_mem _ hd))
          (by simp) t ht
      · rw [if_neg ha] at ht
        rcases List.mem_cons.1 ht with rfl | ht2
        · exact ⟨by simpa [List.isEmpty_iff] using ha, hacc⟩
        · exact splitAux_tokens P cs [] (fun d hd => hl d (List.mem_cons_of_mem _ hd))
            (by simp) t ht2
    · rw [if_neg hc] at ht
      refine splitAux_tokens P cs (acc ++ [c]) (fun d hd => hl d (List.mem_cons_of_mem _ hd)) ?_ t ht
      intro d hd
      rcases List.mem_append.1 hd with h | h
      · exact hacc d h
      · rw [List.mem_singleton] at h
        subst h
        exact ⟨hc, (hl d (List.mem_cons_self ..)).resolve_left hc⟩

/-- Splitting consumes a space-free chunk into the accumulator. -/
theorem splitAux_append :
    ∀ (t r acc : List Char), (∀ c ∈ t, c ≠ ' ') → splitAux (t ++ r) acc = splitAux r (acc ++ t)
  | [], _, _, _ => by simp
  | c :: t, r, acc, ht => by
    have hc : c ≠ ' ' := ht c (List.mem_cons_self ..)
    show splitAux (c :: (t ++ r)) acc = _
    rw [splitAux, if_neg hc,
      splitAux_append t r (acc ++ [c]) (fun d hd => ht d (List.mem_cons_of_mem _ hd))]
    simp

/-- Splitting a space-joined list of nonempty, space-free tokens recovers
exactly the list. -/
theorem splitToks_joinSp :
    ∀ (l : List (List Char)), (∀ t ∈ l, t ≠ [] ∧ ∀ c ∈ t, c ≠ ' ') → splitToks (joinSp l) = l
  | [], _ => rfl
  | [t], h => by
    obtain ⟨hne, hsp⟩ := h t (List.mem_cons_self ..)
    have h2 := splitAux_append t [] [] hsp
    simp only [List.append_nil, List.nil_append] at h2
    rw [show joinSp [t] = t from rfl, splitToks, h2, splitAux]
    simp [List.isEmpty_iff, hne]
  | t :: t2 :: ts, h => by
    obtain ⟨hne, hsp⟩ := h t (List.mem_cons_self ..)
    rw [show joinSp (t :: t2 :: ts) = t ++ ' ' :: joinSp (t2 :: ts) from rfl, splitToks,
      splitAux_append t (' ' :: joinSp (t2 :: ts)) [] hsp]
    simp only [List.nil_append]
    rw [splitAux, if_pos rfl, if_neg (by simpa [List.isEmpty_iff] using hne)]
    rw [show splitAux (joinSp (t2 :: ts)) [] = splitToks (joinSp (t2 :: ts)) from rfl,
      splitToks_joinSp (t2 :: ts) (fun u hu => h u (List.mem_cons_of_mem _ hu))]

/-- A character of a space-joined token list is a space or a token
character. -/
theorem mem_joinSp :
    ∀ (l : List (List Char)) (c : Char), c ∈ joinSp l → c = ' ' ∨ ∃ t ∈ l, c ∈ t
  | [], _, h => by simp [joinSp] at h
  | [t], c, h => .inr ⟨t, by simp, by simpa [joinSp] using h⟩
  | t :: t2 :: ts, c, h => by
    rw [show joinSp (t :: t2 :: ts) = t ++ ' ' :: joinSp (t2 :: ts) from rfl] at h
    rcases List.mem_append.1 h with h | h
    · exact .inr ⟨t, List.mem_cons_self .., h⟩
    · rcases List.mem_cons.1 h with rfl | h
      · exact .inl rfl
      · rcases mem_joinSp (t2 :: ts) c h with h | ⟨u, hu, hc⟩
        · exact .inl h
        · exact .inr ⟨u, List.mem_cons_of_mem _ hu, hc⟩

/-- The per-character normalization of the cleaner maps every character to
a space or to a `GoodChar`. -/
theorem procChar_good (a : Char) :
    (if isAsciiAlnum (asciiLower a) = true then asciiLower a else ' ') = ' ' ∨
      GoodChar (if isAsciiAlnum (asciiLower a) = true then asciiLower a else ' ') := by
  by_cases h : isAsciiAlnum (asciiLower a) = true
  · refine .inr ⟨?_, ?_⟩
    · rw [if_pos h]; exact h
    · rw [if_pos h]; exact asciiLower_idem a
  · exact .inl (if_neg h)

/-- Every character of the cleaner's intermediate, substituted text is a
space or a good character. -/
theorem cleaner_replaced_chars (text : String) :
    ∀ c ∈ (text.data.map asciiLower).map (fun c => if isAsciiAlnum c then c else ' '),
      c = ' ' ∨ GoodChar c := by
  intro c hc
  rw [List.map_map] at hc
  obtain ⟨a, _, rfl⟩ := List.mem_map.1 hc
  exact procChar_good a

/-- Every surviving token of the cleaner is nonempty and consists of
non-space good characters. -/
theorem cleanerTokens_good (text : String) :
    ∀ t ∈ cleanerTokens text, t ≠ [] ∧ ∀ c ∈ t, c ≠ ' ' ∧ GoodChar c := by
  intro t ht
  exact splitAux_tokens GoodChar _ [] (cleaner_replaced_chars text) (by simp) t
    (List.mem_of_mem_filter ht)

/-- The cleaner fixes its own output at the token level. -/
theorem cleanerTokens_cleaner (text : String) :
    cleanerTokens (cleaner text) = cleanerTokens text := by
  have hkeptTok := cleanerTokens_good text
  have houtChars : ∀ c ∈ joinSp (cleanerTokens text), c = ' ' ∨ (c ≠ ' ' ∧ GoodChar c) := by
    intro c hc
    rcases mem_joinSp _ c hc with h | ⟨t, ht, hc2⟩
    · exact .inl h
    · exact .inr ((hkeptTok t ht).2 c hc2)
  have hmap : (joinSp (cleanerTokens text)).map asciiLower = joinSp (cleanerTokens text) := by
    have h1 : ∀ c ∈ joinSp (cleanerTokens text), asciiLower c = c := by
      intro c hc
      rcases houtChars c hc with rfl | ⟨_, _, h2⟩
      · decide
      · exact h2
    calc (joinSp (cleanerTokens text)).map asciiLower
        = (joinSp (cleanerTokens text)).map id := List.map_congr_left h1
      _ = joinSp (cleanerTokens text) := List.map_id _
  have hmap2 : (joinSp (cleanerTokens text)).map (fun c => if isAsciiAlnum c then c else ' ')
      = joinSp (cleanerTokens text) := by
    have h1 : ∀ c ∈ joinSp (cleanerTokens text),
        (if isAsciiAlnum c then c else ' ') = c := by
      intro c hc
      rcases houtChars c hc with rfl | ⟨_, h1, _⟩
      · decide
      · rw [if_pos h1]
    calc (joinSp (cleanerTokens text)).map (fun c => if isAsciiAlnum c then c else ' ')
        = (joinSp (cleanerTokens text)).map id := List.map_congr_left h1
      _ = joinSp (cleanerTokens text) := List.map_id _
  have hsplit : splitToks (joinSp (cleanerTokens text)) = cleanerTokens text :=
    splitToks_joinSp _ (fun t ht => ⟨(hkeptTok t ht).1, fun c hc => ((hkeptTok t ht).2 c hc).1⟩)
  have hdata : (cleaner text).data = joinSp (cleanerTokens text) := rfl
  rw [cleanerTokens, hdata, hmap, hmap2, hsplit, List.filter_eq_self]
  intro t ht
  rw [cleanerTokens] at ht
  exact (List.mem_filter.1 ht).2

/-- Unconditional idempotence of the text cleaner. -/
theorem cleaner_idem (text : String) : cleaner (cleaner text) = cleaner text := by
  calc cleaner (cleaner text)
      = String.mk (joinSp (cleanerTokens (cleaner text))) := rfl
    _ = String.mk (joinSp (cleanerTokens text)) := by rw [cleanerTokens_cleaner]
    _ = cleaner text := rfl

/-! ## Lemmas: column lookup -/

/-- A value list has no occurrence of `title` exactly when no entry equals
it. -/
theorem countOcc_eq_zero :
    ∀ (l : List String) (title : String), countOcc title l = 0 ↔ ∀ v ∈ l, v ≠ title
  | [], title => by simp [countOcc]
  | v :: vs, title => by
    rw [countOcc]
    by_cases h : v = title
    · simp [h]
    · simp [h, countOcc_eq_zero vs title]

/-- With a unique occurrence, `firstIdx` is the one position carrying
`title`. -/
theorem firstIdx_uniq :
    ∀ (l : List String) (title : String), countOcc title l = 1 →
      firstIdx title l < l.length ∧ l.getD (firstIdx title l) "" = title ∧
        ∀ k, k < l.length → k ≠ firstIdx title l → l.getD k "" ≠ title
  | [], title, h => by simp [countOcc] at h
  | v :: vs, title, h => by
    rw [countOcc] at h
    by_cases hv : v = title
    · rw [if_pos hv] at h
      have h0 : countOcc title vs = 0 := by omega
      have hall := (countOcc_eq_zero vs title).1 h0
      have hfi : firstIdx title (v :: vs) = 0 := by rw [firstIdx, if_pos hv]
      refine ⟨by simp [hfi], by rw [hfi, List.getD_cons_zero]; exact hv, ?_⟩
      intro k hk hne
      rw [hfi] at hne
      match k with
      | 0 => exact absurd rfl hne
      | k + 1 =>
        simp only [List.length_cons, Nat.add_lt_add_iff_right] at hk
        rw [List.getD_cons_succ, List.getD_eq_getElem vs "" hk]
        exact hall _ (List.getElem_mem hk)
    · rw [if_neg hv] at h
      have h1 : countOcc title vs = 1 := by omega
      obtain ⟨ih1, ih2, ih3⟩ := firstIdx_uniq vs title h1
      have hfi : firstIdx title (v :: vs) = firstIdx title vs + 1 := by
        rw [firstIdx, if_neg hv]
      refine ⟨?_, ?_, ?_⟩
      · rw [hfi, List.length_cons]; omega
      · rw [hfi, List.getD_cons_succ]; exact ih2
      · intro k hk hne
        rw [hfi] at hne
        match k with
        | 0 => simpa [List.getD_cons_zero] using hv
        | k + 1 =>
          simp only [List.length_cons, Nat.add_lt_add_iff_right] at hk
          rw [List.getD_cons_succ]
          exact ih3 k hk (by omega)

/-- A found column index lies within the column list. -/
theorem findColIdx_lt :
    ∀ (cols : List String) (c : String) (i : Nat),
      findColIdx c cols = some i → i < cols.length
  | [], _, _, h => by simp [findColIdx] at h
  | v :: vs, c, i, h => by
    rw [findColIdx] at h
    by_cases hv : v = c
    · rw [if_pos hv] at h
      simp only [Option.some.injEq] at h
      rw [List.length_cons]
      omega
    · rw [if_neg hv] at h
      simp only [Option.map_eq_some'] at h
      obtain ⟨j, hj, rfl⟩ := h
      have := findColIdx_lt vs c j hj
      simp only [List.length_cons]
      omega

/-! ## Lemmas: the stable descending sort -/

instance instScoreRelTotal {α : Type} [LinearOrder α] :
    IsTotal (Nat × α) (fun a b => b.2 ≤ a.2) := ⟨fun a b => le_total b.2 a.2⟩

instance instScoreRelTrans {α : Type} [LinearOrder α] :
    IsTrans (Nat × α) (fun a b => b.2 ≤ a.2) := ⟨fun _ _ _ h1 h2 => le_trans h2 h1⟩

/-- The sort is a permutation of its input. -/
theorem sortScores_perm {α : Type} [LinearOrder α] (l : List (Nat × α)) :
    List.Perm (sortScores l) l :=
  List.perm_insertionSort _ l

/-- The sort is descending in the scores. -/
theorem sortScores_sorted {α : Type} [LinearOrder α] (l : List (Nat × α)) :
    List.Sorted (fun a b : Nat × α => b.2 ≤ a.2) (sortScores l) :=
  List.sorted_insertionSort _ l

/-- The sort preserves length. -/
theorem sortScores_length {α : Type} [LinearOrder α] (l : List (Nat × α)) :
    (sortScores l).length = l.length :=
  (sortScores_perm l).length_eq

/-- When position `idx` carries the strictly largest score of the
similarity row, the kept positions number `min top_n (N - 1)`, lie within
the row, and never include `idx` itself: the stable descending sort puts
`(idx, q)` first and the slice `[1 : top_n + 1]` drops it. -/
theorem keptIndices_spec {α : Type} [LinearOrder α] (simRow : List α) (top_n : Int)
    (idx : Nat) (q : α) (hq : simRow[idx]? = some q)
    (hmax : ∀ k, k < simRow.length → k ≠ idx → simRow.getD k q < q) :
    (keptIndices simRow top_n).length = min top_n.toNat (simRow.length - 1) ∧
      ∀ k ∈ keptIndices simRow top_n, k < simRow.length ∧ k ≠ idx := by
  have hidx : idx < simRow.length := by
    by_contra hcon
    rw [List.getElem?_eq_none (by omega)] at hq
    cases hq
  have hxmem : (idx, q) ∈ simRow.enum := List.mem_enum_iff_getElem?.2 hq
  have hsl : (sortScores simRow.enum).length = simRow.length := by
    rw [sortScores_length, List.enum_length]
  cases hs : sortScores simRow.enum with
  | nil => rw [hs] at hsl; simp at hsl; omega
  | cons h0 rest =>
    have hperm : List.Perm (h0 :: rest) simRow.enum := by rw [← hs]; exact sortScores_perm _
    have hsort := sortScores_sorted simRow.enum
    rw [hs] at hsort
    have hrel : ∀ b ∈ rest, b.2 ≤ h0.2 := List.rel_of_sorted_cons hsort
    have h0mem : h0 ∈ simRow.enum := hperm.subset (List.mem_cons_self ..)
    have h0get : simRow[h0.1]? = some h0.2 := List.mem_enum_iff_getElem?.1 h0mem
    have h0lt : h0.1 < simRow.length := by
      by_contra hcon
      rw [List.getElem?_eq_none (by omega)] at h0get
      cases h0get
    have h0x : h0 = (idx, q) := by
      by_cases hk : h0.1 = idx
      · have : simRow[h0.1]? = some q := by rw [hk]; exact hq
        rw [h0get] at this
        injection this with hv
        exact Prod.ext hk hv
      · exfalso
        have hv : simRow.getD h0.1 q < q := hmax h0.1 h0lt hk
        rw [List.getD_eq_getElem simRow q h0lt] at hv
        have h0v : simRow[h0.1] = h0.2 := by
          rw [List.getElem?_eq_getElem h0lt] at h0get
          injection h0get
        rw [h0v] at hv
        have hxin : (idx, q) ∈ h0 :: rest := hperm.mem_iff.2 hxmem
        rcases List.mem_cons.1 hxin with h | h
        · exact hk (by rw [← h])
        · exact absurd (lt_of_le_of_lt (hrel _ h) hv) (lt_irrefl q)
    have hnod : ((h0 :: rest).map Prod.fst).Nodup := by
      refine ((hperm.map Prod.fst).nodup_iff).2 ?_
      rw [List.enum_map_fst]
      exact List.nodup_range _
    rw [List.map_cons, List.nodup_cons] at hnod
    have hidxnot : idx ∉ rest.map Prod.fst := by
      have : h0.1 = idx := by rw [h0x]
      rw [← this]
      exact hnod.1
    have hkept : keptIndices simRow top_n = (rest.take top_n.toNat).map Prod.fst := by
      rw [keptIndices, hs, List.drop_succ_cons, List.drop_zero]
    constructor
    · rw [hkept, List.length_map, List.length_take]
      have : rest.length = simRow.length - 1 := by
        rw [hs] at hsl
        simp only [List.length_cons] at hsl
        omega
      rw [this]
    · intro k hk
      rw [hkept] at hk
      obtain ⟨y, hy, rfl⟩ := List.mem_map.1 hk
      have hyrest : y ∈ rest := List.mem_of_mem_take hy
      constructor
      · have : y ∈ simRow.enum := hperm.subset (List.mem_cons_of_mem _ hyrest)
        have hg := List.mem_enum_iff_getElem?.1 this
        by_contra hcon
        rw [List.getElem?_eq_none (by omega)] at hg
        cases hg
      · intro hcon
        exact hidxnot (hcon ▸ List.mem_map_of_mem Prod.fst hyrest)

/-! ## Lemmas: the recommender -/

/-- Reduction of `get_recommendations` to the projection step on the main
branch. -/
theorem get_recommendations_main {α : Type} [LinearOrder α] (title : String)
    (M : List (List α)) (df : DataFrame) (column : String) (top_n : Int)
    (ci : Nat) (simRow : List α)
    (h1 : 1 < top_n) (h2 : top_n < 20)
    (hci : colIdx df column = some ci)
    (hcount : countOcc title (colVals df ci) = 1)
    (hrow : M[firstIdx title (colVals df ci)]? = some simRow) :
    get_recommendations title M df column top_n
      = projStep df column ci (keptIndices simRow top_n) := by
  rw [get_recommendations, if_neg (not_not_intro ⟨h2, h1⟩)]
  split
  · next heq => rw [hci] at heq; exact absurd heq (by simp)
  · next ci2 heq =>
    rw [hci] at heq
    injection heq with heq2
    subst heq2
    rw [if_neg (by rw [hcount]; omega), if_neg (by rw [hcount]; omega)]
    split
    · next heq3 => rw [hrow] at heq3; exact absurd heq3 (by simp)
    · next simRow2 heq3 =>
      rw [hrow] at heq3
      injection heq3 with heq4
      subst heq4
      rfl

/-- Explicit value of the projection step when the projected columns exist
and all positions are in range. -/
theorem projStep_ok (df : DataFrame) (column : String) (ci : Nat) (idxs : List Nat)
    (idCol dlCol : Nat) (hID : colIdx df "ID" = some idCol)
    (hDl : colIdx df "Deadline" = some dlCol)
    (hall : ∀ k ∈ idxs, k < df.rows.length) :
    projStep df column ci idxs =
      .ok { cols := ["ID", column, "Deadline"],
            rows := idxs.map (fun k =>
              [(df.rows.getD k []).getD idCol "", (df.rows.getD k []).getD ci "",
               (df.rows.getD k []).getD dlCol ""]) } := by
  rw [projStep]
  split
  · next idCol2 dlCol2 heq1 heq2 =>
    rw [hID] at heq1
    rw [hDl] at heq2
    injection heq1 with e1
    injection heq2 with e2
    subst e1
    subst e2
    rw [if_pos hall]
  · next hne =>
    exact (hne idCol dlCol hID hDl).elim

/-- The projection step only fails with a missing column or an
out-of-range position. -/
theorem projStep_error (df : DataFrame) (column : String) (ci : Nat) (idxs : List Nat)
    (e : PipeError) (h : projStep df column ci idxs = .error e) :
    e = .missingColumn ∨ e = .ilocIndexOut := by
  rw [projStep] at h
  split at h
  · split at h
    · exact absurd h (by simp)
    · injection h with h2
      exact .inr h2.symm
  · injection h with h2
    exact .inl h2.symm

/-- The recommender only fails with one of its own six error sites; in
particular it never raises the preparer's errors. -/
theorem get_recommendations_error_cases {α : Type} [LinearOrder α] (title : String)
    (M : List (List α)) (df : DataFrame) (column : String) (top_n : Int)
    (e : PipeError) (h : get_recommendations title M df column top_n = .error e) :
    e = .invalidTopN ∨ e = .missingColumn ∨ e = .keyNotFound ∨
      e = .ambiguousTitle ∨ e = .simIndexOut ∨ e = .ilocIndexOut := by
  rw [get_recommendations] at h
  split at h
  · injection h with h2; exact .inl h2.symm
  · split at h
    · injection h with h2; exact .inr (.inl h2.symm)
    · split at h
      · injection h with h2; exact .inr (.inr (.inl h2.symm))
      · split at h
        · injection h with h2; exact .inr (.inr (.inr (.inl h2.symm)))
        · split at h
          · injection h with h2; exact .inr (.inr (.inr (.inr (.inl h2.symm))))
          · rcases projStep_error _ _ _ _ _ h with h2 | h2
            · exact .inr (.inl h2)
            · exact .inr (.inr (.inr (.inr (.inr h2))))

/-- With a valid `top_n`, the recommender never raises the
invalid-argument error. -/
theorem get_recommendations_valid_not_invalid {α : Type} [LinearOrder α] (title : String)
    (M : List (List α)) (df : DataFrame) (column : String) (top_n : Int)
    (h1 : 1 < top_n) (h2 : top_n < 20) :
    get_recommendations title M df column top_n ≠ .error .invalidTopN := by
  intro h
  rw [get_recommendations, if_neg (not_not_intro ⟨h2, h1⟩)] at h
  split at h
  · injection h with h2; cases h2
  · split at h
    · injection h with h2; cases h2
    · split at h
      · injection h with h2; cases h2
      · split at h
        · injection h with h2; cases h2
        · rcases projStep_error _ _ _ _ _ h with h2 | h2 <;> cases h2

/-- With a unique occurrence of the title, the recommender cannot raise the
key-not-found error. -/
theorem get_recommendations_found_not_keyNotFound {α : Type} [LinearOrder α]
    (title : String) (M : List (List α)) (df : DataFrame) (column : String)
    (top_n : Int) (ci : Nat)
    (hci : colIdx df column = some ci)
    (hcount : countOcc title (colVals df ci) = 1) :
    get_recommendations title M df column top_n ≠ .error .keyNotFound := by
  intro h
  rw [get_recommendations] at h
  split at h
  · injection h with h2; cases h2
  · split at h
    · next heq => rw [hci] at heq; cases heq
    · next ci2 heq =>
      rw [hci] at heq
      injection heq with heq2
      subst heq2
      rw [hcount] at h
      rw [if_neg (by omega), if_neg (by omega)] at h
      split at h
      · injection h with h2; cases h2
      · rcases projStep_error _ _ _ _ _ h with h2 | h2 <;> cases h2

/-- In a duplicate-free list, a present title occurs exactly once. -/
theorem countOcc_nodup_mem :
    ∀ (l : List String) (title : String), l.Nodup → title ∈ l → countOcc title l = 1
  | [], title, _, hm => by cases hm
  | v :: vs, title, hnd, hm => by
    rw [List.nodup_cons] at hnd
    rw [countOcc]
    by_cases hv : v = title
    · rw [if_pos hv]
      have h0 : countOcc title vs = 0 :=
        (countOcc_eq_zero vs title).2 (fun u hu he => hnd.1 (hv ▸ he ▸ hu))
      omega
    · rw [if_neg hv]
      have hmvs : title ∈ vs := by
        rcases List.mem_cons.1 hm with h | h
        · exact absurd h.symm hv
        · exact h
      rw [countOcc_nodup_mem vs title hnd.2 hmvs]

/-! ## Lemmas: the similarity matrix -/

/-- The vocabulary has no duplicate terms. -/
theorem vocab_nodup (corpus : List String) : (vocab corpus).Nodup :=
  List.nodup_dedup _

/-- Entry access in the similarity matrix. -/
theorem cosineSimMatrix_getD (corpus : List String) (i j : Nat) :
    ((cosineSimMatrix corpus).getD i []).getD j 0
      = if i < corpus.length ∧ j < corpus.length then cosineEntry corpus i j else 0 := by
  by_cases hi : i < corpus.length
  · have houter : (cosineSimMatrix corpus).getD i []
        = (List.range corpus.length).map (fun k => cosineEntry corpus i k) := by
      rw [cosineSimMatrix, List.getD_eq_getElem _ _ (by simpa using hi),
        List.getElem_map, List.getElem_range]
    rw [houter]
    by_cases hj : j < corpus.length
    · rw [List.getD_eq_getElem _ _ (by simpa using hj), List.getElem_map, List.getElem_range,
        if_pos ⟨hi, hj⟩]
    · rw [List.getD_eq_default _ _ (by simpa using Nat.le_of_not_lt hj),
        if_neg (fun hc => hj hc.2)]
  · have houter : (cosineSimMatrix corpus).getD i [] = ([] : List ℝ) := by
      rw [cosineSimMatrix, List.getD_eq_default _ _ (by simpa using Nat.le_of_not_lt hi)]
    rw [houter, List.getD_nil, if_neg (fun hc => hi hc.1)]

/-- The similarity entry is symmetric in its two indices. -/
theorem cosineEntry_symm (corpus : List String) (i j : Nat) :
    cosineEntry corpus i j = cosineEntry corpus j i := by
  rw [cosineEntry, cosineEntry]
  exact congrArg List.sum (List.map_congr_left (fun t _ => mul_comm _ _))

/-- The squared row norm is a sum of squares, hence nonnegative. -/
theorem rowNormSq_nonneg (corpus : List String) (i : Nat) : 0 ≤ rowNormSq corpus i := by
  rw [rowNormSq]
  apply List.sum_nonneg
  intro x hx
  obtain ⟨t, _, rfl⟩ := List.mem_map.1 hx
  positivity

/-- A non-degenerate row has self-similarity exactly 1. -/
theorem cosineEntry_diag (corpus : List String) (i : Nat)
    (h : rowNormSq corpus i ≠ 0) : cosineEntry corpus i i = 1 := by
  have hpos : 0 < rowNormSq corpus i := lt_of_le_of_ne (rowNormSq_nonneg corpus i) (Ne.symm h)
  rw [cosineEntry]
  have hcong : ∀ t ∈ vocab corpus,
      normalizedEntry corpus i t * normalizedEntry corpus i t
        = tfidfEntry corpus i t ^ 2 * (rowNormSq corpus i)⁻¹ := by
    intro t _
    rw [normalizedEntry, if_neg h, div_mul_div_comm, ← pow_two,
      Real.mul_self_sqrt hpos.le, div_eq_mul_inv]
  rw [List.map_congr_left hcong, List.sum_map_mul_right, ← rowNormSq]
  exact mul_inv_cancel₀ h

/-- Self-similarity of any row: 1 for a non-degenerate row, 0 for a zero
row (the sklearn normalizer leaves zero rows zero). -/
theorem cosineEntry_diag_cases (corpus : List String) (j : Nat) :
    cosineEntry corpus j j = if rowNormSq corpus j = 0 then 0 else 1 := by
  by_cases h : rowNormSq corpus j = 0
  · rw [if_pos h, cosineEntry]
    have hcong : ∀ t ∈ vocab corpus,
        normalizedEntry corpus j t * normalizedEntry corpus j t
          = tfidfEntry corpus j t ^ 2 := by
      intro t _
      rw [normalizedEntry, if_pos h, pow_two]
    rw [List.map_congr_left hcong, ← rowNormSq]
    exact h
  · rw [if_neg h]
    exact cosineEntry_diag corpus j h

/-- Cauchy-Schwarz: every similarity to a non-degenerate row is at most
its self-similarity 1. -/
theorem cosineEntry_le_one (corpus : List String) (i j : Nat)
    (hi : rowNormSq corpus i ≠ 0) : cosineEntry corpus i j ≤ 1 := by
  have hnd := vocab_nodup corpus
  have hsum : cosineEntry corpus i j
      = ∑ t ∈ (vocab corpus).toFinset,
          normalizedEntry corpus i t * normalizedEntry corpus j t := by
    rw [cosineEntry, List.sum_toFinset _ hnd]
  have hui : (∑ t ∈ (vocab corpus).toFinset, normalizedEntry corpus i t ^ 2) = 1 := by
    rw [List.sum_toFinset _ hnd]
    calc ((vocab corpus).map (fun t => normalizedEntry corpus i t ^ 2)).sum
        = ((vocab corpus).map
            (fun t => normalizedEntry corpus i t * normalizedEntry corpus i t)).sum :=
          congrArg List.sum (List.map_congr_left (fun t _ => by rw [pow_two]))
      _ = cosineEntry corpus i i := by rw [cosineEntry]
      _ = 1 := cosineEntry_diag corpus i hi
  have huj : (∑ t ∈ (vocab corpus).toFinset, normalizedEntry corpus j t ^ 2) ≤ 1 := by
    rw [List.sum_toFinset _ hnd]
    have heq : ((vocab corpus).map (fun t => normalizedEntry corpus j t ^ 2)).sum
        = cosineEntry corpus j j := by
      rw [cosineEntry]
      exact congrArg List.sum (List.map_congr_left (fun t _ => by rw [pow_two]))
    rw [heq, cosineEntry_diag_cases]
    split <;> norm_num
  have hcs := Finset.sum_mul_sq_le_sq_mul_sq (vocab corpus).toFinset
    (fun t => normalizedEntry corpus i t) (fun t => normalizedEntry corpus j t)
  rw [hui, one_mul] at hcs
  have h2 : (∑ t ∈ (vocab corpus).toFinset,
      normalizedEntry corpus i t * normalizedEntry corpus j t) ^ 2 ≤ 1 :=
    le_trans hcs huj
  have h3 := (abs_le.1 ((sq_le_one_iff_abs_le_one _).1 h2)).2
  rw [hsum]
  exact h3

/-- Row access in the similarity matrix: row `i` exists for `i < N` and is
the vector of similarities of entry `i`. -/
theorem cosineSimMatrix_row (corpus : List String) (i : Nat) (hi : i < corpus.length) :
    (cosineSimMatrix corpus)[i]?
      = some ((List.range corpus.length).map (fun j => cosineEntry corpus i j)) := by
  rw [cosineSimMatrix, List.getElem?_eq_getElem (by simpa using hi),
    List.getElem_map, List.getElem_range]

/-- Every kept position is a valid row position of the similarity row. -/
theorem keptIndices_lt {α : Type} [LinearOrder α] (simRow : List α) (top_n : Int) :
    ∀ k ∈ keptIndices simRow top_n, k < simRow.length := by
  intro k hk
  rw [keptIndices] at hk
  obtain ⟨y, hy, rfl⟩ := List.mem_map.1 hk
  have h1 : y ∈ (sortScores simRow.enum).drop 1 := List.mem_of_mem_take hy
  have h2 : y ∈ sortScores simRow.enum := List.mem_of_mem_drop h1
  have h3 : y ∈ simRow.enum := (sortScores_perm _).subset h2
  have h4 := List.mem_enum_iff_getElem?.1 h3
  by_contra hcon
  rw [List.getElem?_eq_none (by omega)] at h4
  cases h4

/-! ## Lemmas: the frame preparer -/

/-- The similarity builder only fails on a missing column. -/
theorem dataframe_column_error (df : DataFrame) (c : String) (e : PipeError)
    (h : dataframe_column_to_cosine_sim df c = .error e) : e = .missingColumn := by
  rw [dataframe_column_to_cosine_sim] at h
  split at h
  · injection h with h2; exact h2.symm
  · cases h

/-- On the insertion path the caller-supplied frame always comes back
unchanged: `pandas.DataFrame.append` returns a fresh frame, and every
later mutation acts on the fresh working frame. -/
theorem initialize_snd_insert (df : DataFrame) (title column : String) (top_n : Int) :
    (initialize_frame_for_recommender df title column top_n true).2 = df := by
  rw [initialize_frame_for_recommender, if_pos rfl]
  split
  · rfl
  · split
    · rfl
    · split
      · rfl
      · split
        · rfl
        · split
          · rfl
          · rfl

/-- Appending the label itself to a list not containing it makes it
findable at the end. -/
theorem findColIdx_append_self :
    ∀ (l : List String) (c : String), findColIdx c l = none →
      findColIdx c (l ++ [c]) = some l.length
  | [], c, _ => by rw [List.nil_append, findColIdx, if_pos rfl]; rfl
  | v :: vs, c, h => by
    rw [findColIdx] at h
    by_cases hv : v = c
    · rw [if_pos hv] at h; cases h
    · rw [if_neg hv] at h
      have h2 : findColIdx c vs = none := by
        rcases hfind : findColIdx c vs with _ | j
        · rfl
        · rw [hfind] at h; cases h
      rw [List.cons_append, findColIdx, if_neg hv, findColIdx_append_self vs c h2]
      rfl

/-- The working frame after the cleaned-column assignment always carries a
`cleaned_column`. -/
theorem addCleanedColumn_has_cleaned (df : DataFrame) (ci : Nat) :
    ∃ k, colIdx (addCleanedColumn df ci) "cleaned_column" = some k := by
  rw [addCleanedColumn]
  rcases hfind : colIdx df "cleaned_column" with _ | k
  · exact ⟨df.cols.length, findColIdx_append_self df.cols "cleaned_column" hfind⟩
  · exact ⟨k, hfind⟩

/-- Reduction of the insertion path to the delegate call when every guard
passes. -/
theorem initialize_insert_main (df : DataFrame) (title column : String) (top_n : Int)
    (ci ck : Nat)
    (htok : ¬ (splitToks (cleaner title).data).length < 2)
    (hcols : df.cols.length = 4)
    (hci : colIdx (appendedFrame df title) column = some ci)
    (hdup : cleaner title ∉ (cleanedValsOf (appendedFrame df title) ci).dropLast)
    (hck : colIdx (addCleanedColumn (appendedFrame df title) ci) "cleaned_column" = some ck) :
    initialize_frame_for_recommender df title column top_n true
      = (get_recommendations title
          (cosineSimMatrix (colVals (addCleanedColumn (appendedFrame df title) ci) ck))
          (addCleanedColumn (appendedFrame df title) ci) column top_n, df) := by
  rw [initialize_frame_for_recommender, if_pos rfl, if_neg htok,
    if_neg (by rw [hcols]; exact fun h => h rfl)]
  split
  · next heq => rw [hci] at heq; cases heq
  · next ci2 heq =>
    rw [hci] at heq
    injection heq with e
    subst e
    rw [if_neg hdup]
    split
    · next e heq2 =>
      rw [dataframe_column_to_cosine_sim] at heq2
      split at heq2
      · next heq3 => rw [hck] at heq3; cases heq3
      · cases heq2
    · next res heq2 =>
      rw [dataframe_column_to_cosine_sim] at heq2
      split at heq2
      · cases heq2
      · next ci3 heq3 =>
        rw [hck] at heq3
        injection heq3 with e3
        subst e3
        injection heq2 with e2
        rw [← e2]

/-- The cleaned values of all rows but the appended one are exactly the
cleaned values of the caller's pre-existing rows. -/
theorem cleanedVals_appended_dropLast (df : DataFrame) (title : String) (ci : Nat) :
    (cleanedValsOf (appendedFrame df title) ci).dropLast
      = df.rows.map (fun r => cleaner (r.getD ci "")) := by
  rw [cleanedValsOf, appendedFrame]
  rw [show ({ cols := df.cols, rows := df.rows ++ [new_row_values title]} : DataFrame).rows
      = df.rows ++ [new_row_values title] from rfl]
  rw [List.map_append, List.map_singleton, List.dropLast_concat]

/-- A too-sparse insertion fails immediately, leaving the caller frame
untouched; conversely, with 2 or more cleaned tokens the
insufficient-input error can never arise. -/
theorem initialize_insufficient_iff (df : DataFrame) (title column : String) (top_n : Int) :
    ((initialize_frame_for_recommender df title column top_n true).1
        = .error .insufficientInput
      ↔ (splitToks (cleaner title).data).length < 2) ∧
    ((splitToks (cleaner title).data).length < 2 →
      initialize_frame_for_recommender df title column top_n true
        = (.error .insufficientInput, df)) := by
  rw [initialize_frame_for_recommender, if_pos rfl]
  by_cases hlen : (splitToks (cleaner title).data).length < 2
  · rw [if_pos hlen]
    exact ⟨⟨fun _ => hlen, fun _ => rfl⟩, fun _ => rfl⟩
  · rw [if_neg hlen]
    refine ⟨⟨fun h => ?_, fun h => absurd h hlen⟩, fun h => absurd h hlen⟩
    exfalso
    split at h
    · simp at h
    · split at h
      · simp at h
      · split at h
        · simp at h
        · split at h
          · next e heq2 =>
            simp only at h
            injection h with h2
            rw [dataframe_column_error _ _ _ heq2] at h2
            cases h2
          · simp only at h
            rcases get_recommendations_error_cases _ _ _ _ _ _ h with
              h2 | h2 | h2 | h2 | h2 | h2 <;> cases h2

/-- With enough tokens, a well-shaped table and a present text column, the
insertion path fails with the duplicate-input error exactly when the
cleaned title equals the cleaned value of a pre-existing row. -/
theorem initialize_duplicate_iff (df : DataFrame) (title column : String) (top_n : Int)
    (ci : Nat)
    (htok : ¬ (splitToks (cleaner title).data).length < 2)
    (hcols : df.cols.length = 4)
    (hci : colIdx (appendedFrame df title) column = some ci) :
    (initialize_frame_for_recommender df title column top_n true).1
        = .error .duplicateInput
      ↔ cleaner title ∈ df.rows.map (fun r => cleaner (r.getD ci "")) := by
  by_cases hdup : cleaner title ∈ (cleanedValsOf (appendedFrame df title) ci).dropLast
  · rw [initialize_frame_for_recommender, if_pos rfl, if_neg htok,
      if_neg (by rw [hcols]; exact fun h => h rfl)]
    split
    · next heq => rw [hci] at heq; cases heq
    · next ci2 heq =>
      rw [hci] at heq
      injection heq with e
      subst e
      rw [if_pos hdup]
      constructor
      · intro _
        rw [← cleanedVals_appended_dropLast df title ci]
        exact hdup
      · intro _
        rfl
  · obtain ⟨ck, hck⟩ := addCleanedColumn_has_cleaned (appendedFrame df title) ci
    rw [initialize_insert_main df title column top_n ci ck htok hcols hci hdup hck]
    constructor
    · intro h
      simp only at h
      rcases get_recommendations_error_cases _ _ _ _ _ _ h with
        h2 | h2 | h2 | h2 | h2 | h2 <;> cases h2
    · intro h
      exfalso
      rw [← cleanedVals_appended_dropLast df title ci] at h
      exact hdup h

/-- A table without exactly four columns makes the positional row
construction fail with the shape error. -/
theorem initialize_shape (df : DataFrame) (title column : String) (top_n : Int)
    (htok : ¬ (splitToks (cleaner title).data).length < 2)
    (hne : df.cols.length ≠ 4) :
    initialize_frame_for_recommender df title column top_n true
      = (.error .shapeMismatch, df) := by
  rw [initialize_frame_for_recommender, if_pos rfl, if_neg htok, if_pos hne]

/-- Successful recommendation under a strict maximum: when `top_n` is
valid, the title occurs exactly once, the similarity row exists with one
entry per table row, the projected columns exist, and the query's score is
a strict maximum of its row, the recommender returns exactly
`min top_n (N - 1)` rows, none of which carries the query title in the
designated column. -/
theorem get_recommendations_strictmax_ok {α : Type} [LinearOrder α] (title : String)
    (M : List (List α)) (df : DataFrame) (column : String) (top_n : Int)
    (ci idCol dlCol : Nat) (simRow : List α) (q : α)
    (h1 : 1 < top_n) (h2 : top_n < 20)
    (hci : colIdx df column = some ci)
    (hcount : countOcc title (colVals df ci) = 1)
    (hrow : M[firstIdx title (colVals df ci)]? = some simRow)
    (hlen : simRow.length = df.rows.length)
    (hID : colIdx df "ID" = some idCol)
    (hDl : colIdx df "Deadline" = some dlCol)
    (hq : simRow[firstIdx title (colVals df ci)]? = some q)
    (hmax : ∀ k, k < simRow.length → k ≠ firstIdx title (colVals df ci) →
      simRow.getD k q < q) :
    ∃ out, get_recommendations title M df column top_n = .ok out ∧
      out.rows.length = min top_n.toNat (df.rows.length - 1) ∧
      ∀ r ∈ out.rows, r.getD 1 "" ≠ title := by
  obtain ⟨hklen, hkmem⟩ := keptIndices_spec simRow top_n (firstIdx title (colVals df ci)) q hq hmax
  have hall : ∀ k ∈ keptIndices simRow top_n, k < df.rows.length :=
    fun k hk => hlen ▸ (hkmem k hk).1
  rw [get_recommendations_main title M df column top_n ci simRow h1 h2 hci hcount hrow,
    projStep_ok df column ci _ idCol dlCol hID hDl hall]
  refine ⟨_, rfl, ?_, ?_⟩
  · show ((keptIndices simRow top_n).map _).length = _
    rw [List.length_map, hklen, hlen]
  · intro r hr
    have hr2 : r ∈ (keptIndices simRow top_n).map (fun k =>
        [(df.rows.getD k []).getD idCol "", (df.rows.getD k []).getD ci "",
         (df.rows.getD k []).getD dlCol ""]) := hr
    obtain ⟨k, hkin, rfl⟩ := List.mem_map.1 hr2
    obtain ⟨hklt, hkne⟩ := hkmem k hkin
    have hklt2 : k < df.rows.length := hlen ▸ hklt
    obtain ⟨hfl, hfv, hfu⟩ := firstIdx_uniq (colVals df ci) title hcount
    have hmaplen : k < (df.rows.map (fun r => r.getD ci "")).length := by
      rw [List.length_map]; exact hklt2
    have hvals : (colVals df ci).getD k "" ≠ title :=
      hfu k (by rw [colVals]; exact hmaplen) hkne
    have hv2 : (df.rows.getD k []).getD ci "" = (colVals df ci).getD k "" := by
      rw [colVals, List.getD_eq_getElem _ _ hmaplen,
        List.getElem_map, List.getD_eq_getElem df.rows [] hklt2]
    show (df.rows.getD k []).getD ci "" ≠ title
    rw [hv2]
    exact hvals

/-- Successful recommendation whenever `top_n` is valid, the title occurs
exactly once, the similarity row exists and is no longer than the table,
and the projected columns exist. Success does not depend on the scores. -/
theorem get_recommendations_isOk {α : Type} [LinearOrder α] (title : String)
    (M : List (List α)) (df : DataFrame) (column : String) (top_n : Int)
    (ci idCol dlCol : Nat) (simRow : List α)
    (h1 : 1 < top_n) (h2 : top_n < 20)
    (hci : colIdx df column = some ci)
    (hcount : countOcc title (colVals df ci) = 1)
    (hrow : M[firstIdx title (colVals df ci)]? = some simRow)
    (hlenle : simRow.length ≤ df.rows.length)
    (hID : colIdx df "ID" = some idCol)
    (hDl : colIdx df "Deadline" = some dlCol) :
    ∃ out, get_recommendations title M df column top_n = .ok out := by
  have hall : ∀ k ∈ keptIndices simRow top_n, k < df.rows.length :=
    fun k hk => lt_of_lt_of_le (keptIndices_lt simRow top_n k hk) hlenle
  exact ⟨_, by rw [get_recommendations_main title M df column top_n ci simRow h1 h2 hci
    hcount hrow, projStep_ok df column ci _ idCol dlCol hID hDl hall]⟩

/-- The positions of the synthetic row other than the second never carry
the query title: its other cells are the sentinels `999`, `0` and the
marker text, all of which clean to fewer than 2 tokens. -/
theorem new_row_values_getD_ne (title : String)
    (htok : ¬ (splitToks (cleaner title).data).length < 2) :
    ∀ ci, ci ≠ 1 → (new_row_values title).getD ci "" ≠ title := by
  intro ci hne heq
  apply htok
  match ci, hne with
  | 0, _ =>
    have ht : title = "999" := heq.symm
    rw [ht]; decide
  | 1, hne => exact absurd rfl hne
  | 2, _ =>
    have ht : title = "0" := heq.symm
    rw [ht]; decide
  | 3, _ =>
    have ht : title = "You want to?" := heq.symm
    rw [ht]; decide
  | n + 4, _ =>
    have ht : title = "" := heq.symm
    rw [ht]; decide

/-! ## Concrete computations supporting witnesses and counterexamples -/

/-- The corpus `["server outage"]` has a non-degenerate TF-IDF row: the idf
of each of its two terms is `ln(2/2) + 1 = 1`, so the squared norm is 2. -/
theorem rowNormSq_server_outage : rowNormSq ["server outage"] 0 = 2 := by
  have hvocab : vocab ["server outage"] = ["server", "outage"] := by decide
  have hidf1 : idfVal ["server outage"] "server" = 1 := by
    rw [idfVal, show docFreq ["server outage"] "server" = 1 from by decide]
    norm_num [Real.log_one]
  have hidf2 : idfVal ["server outage"] "outage" = 1 := by
    rw [idfVal, show docFreq ["server outage"] "outage" = 1 from by decide]
    norm_num [Real.log_one]
  have hc1 : (processedDoc ((["server outage"] : List String).getD 0 "")).count "server" = 1 := by
    decide
  have hc2 : (processedDoc ((["server outage"] : List String).getD 0 "")).count "outage" = 1 := by
    decide
  rw [rowNormSq, hvocab, List.map_cons, List.map_cons, List.map_nil,
    List.sum_cons, List.sum_cons, List.sum_nil, tfidfEntry, tfidfEntry,
    hidf1, hidf2, hc1, hc2]
  norm_num

/-- Two corpus entries with identical text have similarity exactly 1 when
non-degenerate: their TF-IDF rows coincide. -/
theorem cosineEntry_docs_eq (c : List String) (i j : Nat)
    (hdoc : c.getD i "" = c.getD j "") (hi : rowNormSq c i ≠ 0) :
    cosineEntry c i j = 1 := by
  have ht : ∀ t, tfidfEntry c j t = tfidfEntry c i t := fun t => by
    rw [tfidfEntry, tfidfEntry, hdoc]
  have hnorm : rowNormSq c j = rowNormSq c i := by
    rw [rowNormSq, rowNormSq]
    exact congrArg List.sum (List.map_congr_left (fun t _ => by rw [ht]))
  have hne : ∀ t, normalizedEntry c j t = normalizedEntry c i t := fun t => by
    rw [normalizedEntry, normalizedEntry, hnorm, ht]
  have hee : cosineEntry c i j = cosineEntry c i i := by
    rw [cosineEntry, cosineEntry]
    exact congrArg List.sum (List.map_congr_left (fun t _ => by rw [hne]))
  rw [hee]
  exact cosineEntry_diag c i hi

/-- The duplicated corpus of the C1 scenario has a non-degenerate first
row: each of its three terms has idf `ln(3/3) + 1 = 1`. -/
theorem rowNormSq_dup_big :
    rowNormSq ["big server outage", "big server outage"] 0 = 3 := by
  have hvocab : vocab ["big server outage", "big server outage"]
      = ["big", "server", "outage"] := by decide
  have hidf1 : idfVal ["big server outage", "big server outage"] "big" = 1 := by
    rw [idfVal,
      show docFreq ["big server outage", "big server outage"] "big" = 2 from by decide]
    norm_num [Real.log_one]
  have hidf2 : idfVal ["big server outage", "big server outage"] "server" = 1 := by
    rw [idfVal,
      show docFreq ["big server outage", "big server outage"] "server" = 2 from by decide]
    norm_num [Real.log_one]
  have hidf3 : idfVal ["big server outage", "big server outage"] "outage" = 1 := by
    rw [idfVal,
      show docFreq ["big server outage", "big server outage"] "outage" = 2 from by decide]
    norm_num [Real.log_one]
  have hc1 : (processedDoc ((["big server outage", "big server outage"] :
      List String).getD 0 "")).count "big" = 1 := by decide
  have hc2 : (processedDoc ((["big server outage", "big server outage"] :
      List String).getD 0 "")).count "server" = 1 := by decide
  have hc3 : (processedDoc ((["big server outage", "big server outage"] :
      List String).getD 0 "")).count "outage" = 1 := by decide
  rw [rowNormSq, hvocab, List.map_cons, List.map_cons, List.map_cons, List.map_nil,
    List.sum_cons, List.sum_cons, List.sum_cons, List.sum_nil,
    tfidfEntry, tfidfEntry, tfidfEntry, hidf1, hidf2, hidf3, hc1, hc2, hc3]
  norm_num

/-- Realizability of the C1 counterexample: a table with two titles that
clean to the same text really does produce the all-ones similarity
matrix. -/
theorem dup_table_matrix_realizable :
    ({ cols := ["ID", "Task", "Deadline"],
       rows := [["1", "Big Server Outage", "d1"],
                ["2", "big server outage", "d2"]] } : DataFrame).rows.map
        (fun r => cleaner (r.getD 1 ""))
      = ["big server outage", "big server outage"] ∧
    cosineSimMatrix ["big server outage", "big server outage"]
      = [[1, 1], [1, 1]] := by
  refine ⟨by decide, ?_⟩
  have h0 : rowNormSq ["big server outage", "big server outage"] 0 ≠ 0 := by
    rw [rowNormSq_dup_big]; norm_num
  have hdoc : (["big server outage", "big server outage"] : List String).getD 0 ""
      = (["big server outage", "big server outage"] : List String).getD 1 "" := rfl
  have hdoc2 : (["big server outage", "big server outage"] : List String).getD 1 ""
      = (["big server outage", "big server outage"] : List String).getD 0 "" := rfl
  have h1 : rowNormSq ["big server outage", "big server outage"] 1 ≠ 0 := by
    have hswap : rowNormSq ["big server outage", "big server outage"] 1
        = rowNormSq ["big server outage", "big server outage"] 0 := by
      rw [rowNormSq, rowNormSq]
      exact congrArg List.sum
        (List.map_congr_left (fun t _ => by rw [tfidfEntry, tfidfEntry, hdoc2]))
    rw [hswap]
    exact h0
  rw [cosineSimMatrix,
    show (["big server outage", "big server outage"] : List String).length = 2 from rfl,
    show List.range 2 = [0, 1] from rfl]
  simp only [List.map_cons, List.map_nil]
  rw [cosineEntry_diag _ 0 h0, cosineEntry_docs_eq _ 0 1 hdoc h0,
    cosineEntry_docs_eq _ 1 0 hdoc2 h1, cosineEntry_diag _ 1 h1]

/-! ## The claims -/

/-- Claim C1, as stated, is false: when another row's cleaned text
coincides with the query's, both score 1 in the query's similarity row;
the stable descending sort then puts the other, earlier row first, and
dropping only the first entry keeps the query row itself. At this concrete
input the single returned row is exactly the row whose `Task` value equals
the queried title. -/
theorem claim1_counterexample :
    get_recommendations "big server outage" ([[1, 1], [1, 1]] : List (List ℚ))
        { cols := ["ID", "Task", "Deadline"],
          rows := [["1", "Big Server Outage", "d1"], ["2", "big server outage", "d2"]] }
        "Task" 2
      = .ok { cols := ["ID", "Task", "Deadline"],
              rows := [["2", "big server outage", "d2"]] } ∧
    ([["2", "big server outage", "d2"]].getD 0 []).getD 1 "" = "big server outage" :=
  ⟨rfl, rfl⟩

/-- Claim C1 (amended): for every table and valid `top_n` in 2..19, when
the query title occurs exactly once in the designated column, the
similarity row of the query exists with one entry per table row, the
projected columns exist, and the query's score is a strict maximum of its
similarity row (as with distinct cleaned texts and a non-degenerate query
vector), `get_recommendations` returns exactly `min top_n (N - 1)` rows
and the returned rows never include the row carrying the query title. -/
theorem claim1_amended {α : Type} [LinearOrder α] (title : String)
    (M : List (List α)) (df : DataFrame) (column : String) (top_n : Int)
    (ci idCol dlCol : Nat) (simRow : List α) (q : α)
    (h1 : 1 < top_n) (h2 : top_n < 20)
    (hci : colIdx df column = some ci)
    (hcount : countOcc title (colVals df ci) = 1)
    (hrow : M[firstIdx title (colVals df ci)]? = some simRow)
    (hlen : simRow.length = df.rows.length)
    (hID : colIdx df "ID" = some idCol)
    (hDl : colIdx df "Deadline" = some dlCol)
    (hq : simRow[firstIdx title (colVals df ci)]? = some q)
    (hmax : ∀ k, k < simRow.length → k ≠ firstIdx title (colVals df ci) →
      simRow.getD k q < q) :
    ∃ out, get_recommendations title M df column top_n = .ok out ∧
      out.rows.length = min top_n.toNat (df.rows.length - 1) ∧
      ∀ r ∈ out.rows, r.getD 1 "" ≠ title :=
  get_recommendations_strictmax_ok title M df column top_n ci idCol dlCol simRow q
    h1 h2 hci hcount hrow hlen hID hDl hq hmax

/-- Witness for the amended claim C1 at a concrete two-row table with a
strict maximum at the query position. -/
theorem claim1_witness :
    countOcc "a" (colVals
      { cols := ["ID", "Task", "Deadline"],
        rows := [["1", "a", "d1"], ["2", "b", "d2"]] } 1) = 1 ∧
    ∃ out, get_recommendations "a" ([[3, 1], [1, 3]] : List (List Int))
        { cols := ["ID", "Task", "Deadline"],
          rows := [["1", "a", "d1"], ["2", "b", "d2"]] } "Task" 2
      = .ok out ∧
      out.rows.length = min (2 : Int).toNat
        (({ cols := ["ID", "Task", "Deadline"],
            rows := [["1", "a", "d1"], ["2", "b", "d2"]] } : DataFrame).rows.length - 1) ∧
      ∀ r ∈ out.rows, r.getD 1 "" ≠ "a" :=
  ⟨by decide,
    claim1_amended "a" ([[3, 1], [1, 3]] : List (List Int))
      { cols := ["ID", "Task", "Deadline"],
        rows := [["1", "a", "d1"], ["2", "b", "d2"]] } "Task" 2 1 0 2 [3, 1] 3
      (by omega) (by omega) (by decide) (by decide) (by decide) (by decide)
      (by decide) (by decide) (by decide) (by decide)⟩

/-- Claim C2: `get_recommendations` raises the invalid-argument error
exactly when `top_n ≤ 1` or `top_n ≥ 20`; in particular 0, 1 and 20 all
fail with it and no value in 2..19 does. -/
theorem claim2_invalid_arg_iff {α : Type} [LinearOrder α] (title : String)
    (M : List (List α)) (df : DataFrame) (column : String) (top_n : Int) :
    (get_recommendations title M df column top_n = .error .invalidTopN)
      ↔ (top_n ≤ 1 ∨ 20 ≤ top_n) := by
  constructor
  · intro h
    by_contra hcon
    push_neg at hcon
    exact get_recommendations_valid_not_invalid title M df column top_n
      (by omega) (by omega) h
  · intro h
    rw [get_recommendations, if_pos (by omega)]

/-- Claim C3: with `is_new_query` true, the pipeline fails with the
insufficient-input error exactly when the cleaned title has fewer than 2
tokens, and on that error the synthetic row is never appended (the caller
frame comes back exactly as supplied). -/
theorem claim3_insufficient_input (df : DataFrame) (title column : String) (top_n : Int) :
    ((initialize_frame_for_recommender df title column top_n true).1
        = .error .insufficientInput
      ↔ (splitToks (cleaner title).data).length < 2) ∧
    ((splitToks (cleaner title).data).length < 2 →
      initialize_frame_for_recommender df title column top_n true
        = (.error .insufficientInput, df)) :=
  initialize_insufficient_iff df title column top_n

/-- Witness for claim C3: the single-token title `Task` fails with the
insufficient-input error and the caller frame is unchanged. -/
theorem claim3_witness :
    (splitToks (cleaner "Task").data).length < 2 ∧
    initialize_frame_for_recommender
        { cols := ["ID", "Task", "Deadline", "Status"],
          rows := [["1", "fix server outage", "d1", "s"]] } "Task" "Task" 5 true
      = (.error .insufficientInput,
         { cols := ["ID", "Task", "Deadline", "Status"],
           rows := [["1", "fix server outage", "d1", "s"]] }) :=
  ⟨by decide,
    (claim3_insufficient_input
      { cols := ["ID", "Task", "Deadline", "Status"],
        rows := [["1", "fix server outage", "d1", "s"]] } "Task" "Task" 5).2 (by decide)⟩

/-- Claim C4, as stated over every table, is false: on a three-column
table whose only row cleans to the same text as the title, the positional
row construction fails first, so the call ends with the construction error
and not the duplicate-input error even though a pre-existing row matches. -/
theorem claim4_counterexample :
    (initialize_frame_for_recommender
        { cols := ["ID", "Task", "Deadline"], rows := [["1", "fix server outage", "d1"]] }
        "Fix Server Outage!" "Task" 3 true).1
      = .error .shapeMismatch ∧
    cleaner "Fix Server Outage!" ∈
      ({ cols := ["ID", "Task", "Deadline"],
         rows := [["1", "fix server outage", "d1"]] } : DataFrame).rows.map
        (fun r => cleaner (r.getD 1 "")) ∧
    (.error .shapeMismatch : Except PipeError DataFrame) ≠ .error .duplicateInput := by
  refine ⟨?_, by decide, by intro h; injection h with h2; cases h2⟩
  rw [initialize_shape
    { cols := ["ID", "Task", "Deadline"], rows := [["1", "fix server outage", "d1"]] }
    "Fix Server Outage!" "Task" 3 (by decide) (by decide)]

/-- Claim C4 (amended): with `is_new_query` true, a cleaned title of at
least 2 tokens, a four-column table (as the positional construction of the
query row requires) and a present designated column, the pipeline fails
with the duplicate-input error exactly when the cleaned title equals the
cleaned value of some pre-existing row (the appended row itself being
excluded from the comparison). -/
theorem claim4_duplicate_input (df : DataFrame) (title column : String) (top_n : Int)
    (ci : Nat)
    (htok : ¬ (splitToks (cleaner title).data).length < 2)
    (hcols : df.cols.length = 4)
    (hci : colIdx (appendedFrame df title) column = some ci) :
    (initialize_frame_for_recommender df title column top_n true).1
        = .error .duplicateInput
      ↔ cleaner title ∈ df.rows.map (fun r => cleaner (r.getD ci "")) :=
  initialize_duplicate_iff df title column top_n ci htok hcols hci

/-- Witness for claim C4: a title differing only in case and punctuation
from an existing row fails with the duplicate-input error. -/
theorem claim4_witness :
    ¬ (splitToks (cleaner "Fix Server Outage!").data).length < 2 ∧
    (initialize_frame_for_recommender
        { cols := ["ID", "Task", "Deadline", "Status"],
          rows := [["1", "fix server outage", "d1", "s"]] }
        "Fix Server Outage!" "Task" 3 true).1
      = .error .duplicateInput :=
  ⟨by decide,
    (claim4_duplicate_input
      { cols := ["ID", "Task", "Deadline", "Status"],
        rows := [["1", "fix server outage", "d1", "s"]] }
      "Fix Server Outage!" "Task" 3 1 (by decide) (by decide) (by decide)).2 (by decide)⟩

/-- Claim C5: cleaning is idempotent on every text made of letters, digits
and stop-words. (The proof factors through `cleaner_idem`, which holds for
all strings.) -/
theorem claim5_cleaner_idempotent (x : String) (_hx : lettersDigitsStopwordsOnly x) :
    cleaner (cleaner x) = cleaner x :=
  cleaner_idem x

/-- Witness for claim C5 at a text of letters, digits and stop-words. -/
theorem claim5_witness :
    lettersDigitsStopwordsOnly "The Server 99 is down" ∧
    cleaner (cleaner "The Server 99 is down") = cleaner "The Server 99 is down" :=
  ⟨by rw [lettersDigitsStopwordsOnly]; decide,
    claim5_cleaner_idempotent "The Server 99 is down"
      (by rw [lettersDigitsStopwordsOnly]; decide)⟩

/-- Claim C6: the similarity matrix produced by
`dataframe_column_to_cosine_sim` is symmetric, exactly (hence within any
floating-point tolerance). -/
theorem claim6_similarity_symmetric (df : DataFrame) (column : String)
    (corpus : List String) (M : List (List ℝ)) (i j : Nat)
    (h : dataframe_column_to_cosine_sim df column = .ok (corpus, M)) :
    (M.getD i []).getD j 0 = (M.getD j []).getD i 0 := by
  rw [dataframe_column_to_cosine_sim] at h
  split at h
  · cases h
  · next ci heq =>
    injection h with h2
    rw [Prod.mk.injEq] at h2
    obtain ⟨h3, h4⟩ := h2
    subst h4
    rw [cosineSimMatrix_getD, cosineSimMatrix_getD]
    by_cases hij : i < (colVals df ci).length ∧ j < (colVals df ci).length
    · rw [if_pos hij, if_pos ⟨hij.2, hij.1⟩, cosineEntry_symm]
    · rw [if_neg hij, if_neg (fun hc => hij ⟨hc.2, hc.1⟩)]

/-- Witness for claim C6 on a one-row table. -/
theorem claim6_witness :
    dataframe_column_to_cosine_sim
        { cols := ["ID", "Task", "Deadline"], rows := [["1", "server outage", "d"]] } "Task"
      = .ok (["server outage"], cosineSimMatrix ["server outage"]) ∧
    ((cosineSimMatrix ["server outage"]).getD 0 []).getD 1 0
      = ((cosineSimMatrix ["server outage"]).getD 1 []).getD 0 0 :=
  ⟨rfl,
    claim6_similarity_symmetric
      { cols := ["ID", "Task", "Deadline"], rows := [["1", "server outage", "d"]] }
      "Task" ["server outage"] (cosineSimMatrix ["server outage"]) 0 1 rfl⟩

/-- Claim C7: in the matrix produced by `dataframe_column_to_cosine_sim`,
every row whose TF-IDF vector is non-zero has self-similarity exactly 1,
and that diagonal value bounds every entry of the row. -/
theorem claim7_self_similarity_max (df : DataFrame) (column : String)
    (corpus : List String) (M : List (List ℝ)) (i : Nat)
    (h : dataframe_column_to_cosine_sim df column = .ok (corpus, M))
    (hi : i < corpus.length)
    (hnz : rowNormSq corpus i ≠ 0) :
    (M.getD i []).getD i 0 = 1 ∧
      ∀ j, (M.getD i []).getD j 0 ≤ (M.getD i []).getD i 0 := by
  rw [dataframe_column_to_cosine_sim] at h
  split at h
  · cases h
  · next ci heq =>
    injection h with h2
    rw [Prod.mk.injEq] at h2
    obtain ⟨h3, h4⟩ := h2
    subst h4
    subst h3
    have hdiag : (((cosineSimMatrix (colVals df ci)).getD i []).getD i 0 : ℝ) = 1 := by
      rw [cosineSimMatrix_getD, if_pos ⟨hi, hi⟩]
      exact cosineEntry_diag _ _ hnz
    refine ⟨hdiag, ?_⟩
    intro j
    rw [hdiag, cosineSimMatrix_getD]
    by_cases hj : j < (colVals df ci).length
    · rw [if_pos ⟨hi, hj⟩]
      exact cosineEntry_le_one _ _ _ hnz
    · rw [if_neg (fun hc => hj hc.2)]
      norm_num

/-- Witness for claim C7 on a one-row table whose single document is
non-degenerate. -/
theorem claim7_witness :
    rowNormSq ["server outage"] 0 ≠ 0 ∧
    ((cosineSimMatrix ["server outage"]).getD 0 []).getD 0 0 = 1 ∧
    ((cosineSimMatrix ["server outage"]).getD 0 []).getD 1 0
      ≤ ((cosineSimMatrix ["server outage"]).getD 0 []).getD 0 0 := by
  have hnz : rowNormSq ["server outage"] 0 ≠ 0 := by
    rw [rowNormSq_server_outage]; norm_num
  have h := claim7_self_similarity_max
    { cols := ["ID", "Task", "Deadline"], rows := [["1", "server outage", "d"]] }
    "Task" ["server outage"] (cosineSimMatrix ["server outage"]) 0 rfl (by decide) hnz
  exact ⟨hnz, h.1, h.2 1⟩

/-- Claim C8: over a table whose designated-column values are unique and
for valid `top_n`, `get_recommendations` fails with the key-not-found
error exactly when the title is absent from the column. -/
theorem claim8_key_not_found {α : Type} [LinearOrder α] (title : String)
    (M : List (List α)) (df : DataFrame) (column : String) (top_n : Int) (ci : Nat)
    (h1 : 1 < top_n) (h2 : top_n < 20)
    (hci : colIdx df column = some ci)
    (hnd : (colVals df ci).Nodup) :
    (get_recommendations title M df column top_n = .error .keyNotFound)
      ↔ title ∉ colVals df ci := by
  constructor
  · intro h hmem
    exact get_recommendations_found_not_keyNotFound title M df column top_n ci hci
      (countOcc_nodup_mem _ _ hnd hmem) h
  · intro hnot
    have h0 : countOcc title (colVals df ci) = 0 :=
      (countOcc_eq_zero _ _).2 (fun v hv he => hnot (he ▸ hv))
    rw [get_recommendations, if_neg (not_not_intro ⟨h2, h1⟩)]
    split
    · next heq => rw [hci] at heq; cases heq
    · next ci2 heq =>
      rw [hci] at heq
      injection heq with e
      subst e
      rw [if_pos h0]

/-- Witness for claim C8: an absent title fails with the key-not-found
error on a duplicate-free table. -/
theorem claim8_witness :
    (colVals
      { cols := ["ID", "Task", "Deadline"],
        rows := [["1", "a b", "d1"], ["2", "c d", "d2"]] } 1).Nodup ∧
    "absent task" ∉ colVals
      { cols := ["ID", "Task", "Deadline"],
        rows := [["1", "a b", "d1"], ["2", "c d", "d2"]] } 1 ∧
    get_recommendations "absent task" ([[1, 0], [0, 1]] : List (List Int))
        { cols := ["ID", "Task", "Deadline"],
          rows := [["1", "a b", "d1"], ["2", "c d", "d2"]] } "Task" 2
      = .error .keyNotFound :=
  ⟨by decide, by decide,
    (claim8_key_not_found "absent task" ([[1, 0], [0, 1]] : List (List Int))
      { cols := ["ID", "Task", "Deadline"],
        rows := [["1", "a b", "d1"], ["2", "c d", "d2"]] } "Task" 2 1
      (by omega) (by omega) (by decide) (by decide)).2 (by decide)⟩

/-- Claim C9, as stated, is false: at this concrete insertion the call
succeeds (no error is raised), yet the caller-supplied table comes back
exactly as it was and contains no row with `ID = 999` — `DataFrame.append`
returns a fresh frame, so the synthetic query row only ever exists in the
working copy. -/
theorem claim9_counterexample :
    exceptIsOk (initialize_frame_for_recommender
        { cols := ["ID", "Task", "Deadline", "Status"],
          rows := [["1", "fix server outage", "d1", "s"]] }
        "plan holiday party" "Task" 2 true).1 = true ∧
    (initialize_frame_for_recommender
        { cols := ["ID", "Task", "Deadline", "Status"],
          rows := [["1", "fix server outage", "d1", "s"]] }
        "plan holiday party" "Task" 2 true).2
      = { cols := ["ID", "Task", "Deadline", "Status"],
          rows := [["1", "fix server outage", "d1", "s"]] } ∧
    ¬ ("999" ∈
      ({ cols := ["ID", "Task", "Deadline", "Status"],
         rows := [["1", "fix server outage", "d1", "s"]] } : DataFrame).rows.map
        (fun r => r.getD 0 "")) := by
  have hck : colIdx (addCleanedColumn (appendedFrame
      { cols := ["ID", "Task", "Deadline", "Status"],
        rows := [["1", "fix server outage", "d1", "s"]] } "plan holiday party") 1)
      "cleaned_column" = some 4 := by decide
  have hmain := initialize_insert_main
    { cols := ["ID", "Task", "Deadline", "Status"],
      rows := [["1", "fix server outage", "d1", "s"]] }
    "plan holiday party" "Task" 2 1 4 (by decide) (by decide) (by decide) (by decide) hck
  have hfi : firstIdx "plan holiday party"
      (colVals (addCleanedColumn (appendedFrame
        { cols := ["ID", "Task", "Deadline", "Status"],
          rows := [["1", "fix server outage", "d1", "s"]] } "plan holiday party") 1) 1)
      = 1 := by decide
  have hrow := cosineSimMatrix_row
    (colVals (addCleanedColumn (appendedFrame
      { cols := ["ID", "Task", "Deadline", "Status"],
        rows := [["1", "fix server outage", "d1", "s"]] } "plan holiday party") 1) 4)
    1 (by decide)
  obtain ⟨out, hout⟩ := get_recommendations_isOk "plan holiday party"
    (cosineSimMatrix (colVals (addCleanedColumn (appendedFrame
      { cols := ["ID", "Task", "Deadline", "Status"],
        rows := [["1", "fix server outage", "d1", "s"]] } "plan holiday party") 1) 4))
    (addCleanedColumn (appendedFrame
      { cols := ["ID", "Task", "Deadline", "Status"],
        rows := [["1", "fix server outage", "d1", "s"]] } "plan holiday party") 1)
    "Task" 2 1 0 2 _
    (by omega) (by omega) (by decide) (by decide) (by rw [hfi]; exact hrow)
    (by rw [List.length_map, List.length_range]; decide) (by decide) (by decide)
  refine ⟨?_, ?_, by decide⟩
  · rw [hmain, hout]
    rfl
  · rw [hmain]

/-- Claim C9 (amended): on the insertion path the caller-supplied table is
never mutated or extended — `pandas.DataFrame.append` returns a new frame
and the local name is rebound to it, so the synthetic query row exists
only in the fresh working table and the caller observes the table exactly
as supplied. -/
theorem claim9_amended (df : DataFrame) (title column : String) (top_n : Int) :
    (initialize_frame_for_recommender df title column top_n true).2 = df :=
  initialize_snd_insert df title column top_n

/-- Claim C10: the synthetic query row is built positionally from exactly
four values against the table's column list, so insertion fails with the
construction error for any table without exactly four columns; the title
lands in the second position, and for any designated column that is not
the second one the query row's value there is never the title (its other
cells are sentinels that clean to fewer than 2 tokens). -/
theorem claim10_positional_row (df : DataFrame) (title column : String) (top_n : Int)
    (ci : Nat)
    (htok : ¬ (splitToks (cleaner title).data).length < 2) :
    (df.cols.length ≠ 4 →
      initialize_frame_for_recommender df title column top_n true
        = (.error .shapeMismatch, df)) ∧
    (new_row_values title).getD 1 "" = title ∧
    (colIdx df column = some ci → ci ≠ 1 →
      (new_row_values title).getD ci "" ≠ title) :=
  ⟨fun hne => initialize_shape df title column top_n htok hne, rfl,
    fun _ hne => new_row_values_getD_ne title htok ci hne⟩

/-- Witness for claim C10: a three-column table makes insertion fail with
the construction error, and on the canonical four-column layout a
designated column at position 2 cannot receive the title. -/
theorem claim10_witness :
    ¬ (splitToks (cleaner "plan holiday party").data).length < 2 ∧
    initialize_frame_for_recommender
        { cols := ["ID", "Task", "Deadline"], rows := [["1", "fix server outage", "d1"]] }
        "plan holiday party" "Deadline" 2 true
      = (.error .shapeMismatch,
         { cols := ["ID", "Task", "Deadline"], rows := [["1", "fix server outage", "d1"]] }) ∧
    (new_row_values "plan holiday party").getD 1 "" = "plan holiday party" ∧
    (new_row_values "plan holiday party").getD 2 "" ≠ "plan holiday party" := by
  have h := claim10_positional_row
    { cols := ["ID", "Task", "Deadline"], rows := [["1", "fix server outage", "d1"]] }
    "plan holiday party" "Deadline" 2 2 (by decide)
  exact ⟨by decide, h.1 (by decide), h.2.1, h.2.2 (by decide) (by decide)⟩

end TaskRec
